import Mathlib

/-!
Verification of the frag-x arena-shooter core against its specification.

The Python sources embedded here are:
- `src/simulation_object/hitscan_beam.py` (beam damage resolution, `HitscanBeam.step`),
- `src/weapons/weapon.py` (weapon cooldown state, the `HitscanBeam` class used by
  payloads, `RadialExplosives.activate`),
- `src/frag-x-py/server.py` (tick loop: input-queue drain, snapshot assembly,
  broadcast, per-connection producer threads, lock usage),
- `src/client.py` (length-prefixed message reassembly in `game_state_watcher`).

Python floats are modelled as exact numbers: rationals (`ℚ`) where only field
operations occur, reals (`ℝ`) where `sqrt`/`cos`/`sin`/`π` appear.  Code that
raises is modelled with `Except`/`Option`.  Helper modules that are not part of
the sources (`intersections`, `converters`, `helpers`, `player`) are either
abstracted as parameters or modelled from the specification; each such
definition says so in its doc comment.
-/

namespace FragX

/-! ### Rational 2-D vectors (pygame.math.Vector2 for simulation state) -/

/-- A 2-D vector with exact rational coordinates; models `pygame.math.Vector2`
values on which only `+`, `-`, scalar `*` are performed. -/
structure Vec2 where
  x : ℚ
  y : ℚ
deriving DecidableEq

instance : Add Vec2 := ⟨fun a b => ⟨a.x + b.x, a.y + b.y⟩⟩

instance : Zero Vec2 := ⟨⟨0, 0⟩⟩

/-- Scalar multiplication `c * v` on rational vectors. -/
def Vec2.smul (c : ℚ) (v : Vec2) : Vec2 := ⟨c * v.x, c * v.y⟩

/-! ### simulation_object/hitscan_beam.py : HitscanBeam.step -/

/-- The mutable player fields read and written by `HitscanBeam.step`
(`health`, `velocity`, `time_of_death`, `num_frags`); from the `Player`
entity of the data model.  `time_of_death` holds `pygame.time.get_ticks()`
milliseconds when set. -/
structure PlayerState where
  health : ℤ
  velocity : Vec2
  time_of_death : Option ℕ
  num_frags : ℕ
deriving DecidableEq

/-- The fields of a constructed `HitscanBeam` (simulation_object/hitscan_beam.py)
that `step` reads: the precomputed unit `direction_vector`, `damage` and
`collision_force`.  The geometric constructor itself is modelled separately
(over `ℝ`) as `hitscanBeamInit`. -/
structure HitscanBeam where
  direction_vector : Vec2
  damage : ℤ
  collision_force : ℚ
deriving DecidableEq

/-- Outcome of `intersections.get_closest_intersecting_object_in_pmg` as seen by
`HitscanBeam.step` (the `intersections` module is not under src, so the
resolution result is an input):
`noHit` models `closest_hit is None`; `wallHit` models an entity without a
`uuid` in `SIMULATION.players` (a wall); `playerHit hp` models a hit on a
player registered in `SIMULATION.players`, carrying that player's state. -/
inductive BeamResolution where
  | noHit : BeamResolution
  | wallHit : BeamResolution
  | playerHit (hp : PlayerState) : BeamResolution
deriving DecidableEq

/-- Embedding of `HitscanBeam.step` (simulation_object/hitscan_beam.py lines
62-88).  `firer` is `self.player` (the beam's owner), `now` is
`pygame.time.get_ticks()`, `res` the intersection result.  Returns the updated
firer state and, when a player was hit, that player's updated state.  Mirrors
the source: on a hit of a registered player, `health -= damage`; if the new
health is `≤ 0` the velocity is zeroed, `time_of_death` is set only when it
was `None`, and `num_frags` of the firer is incremented (unconditionally, as
in the source); otherwise knockback `velocity += direction_vector *
collision_force` is applied. -/
def HitscanBeam.step (b : HitscanBeam) (now : ℕ) (firer : PlayerState)
    (res : BeamResolution) : PlayerState × Option PlayerState :=
  match res with
  | .noHit => (firer, none)
  | .wallHit => (firer, none)
  | .playerHit hp =>
    let hp1 : PlayerState := { hp with health := hp.health - b.damage }
    if hp1.health ≤ 0 then
      let hp2 : PlayerState :=
        { hp1 with
          velocity := 0
          time_of_death :=
            match hp1.time_of_death with
            | none => some now
            | some t => some t }
      ({ firer with num_frags := firer.num_frags + 1 }, some hp2)
    else
      (firer, some { hp1 with
        velocity := hp1.velocity + Vec2.smul b.collision_force b.direction_vector })

/-! ### weapons/weapon.py : Weapon cooldown state -/

/-- The cooldown state set up by `Weapon.__init__` (weapons/weapon.py lines
12-20): `seconds_per_shot = 1 / fire_rate_hz` and `time_since_last_shot`
initialised to `seconds_per_shot` so the weapon can fire immediately. -/
structure Weapon where
  fire_rate_hz : ℚ
  seconds_per_shot : ℚ
  time_since_last_shot : ℚ
deriving DecidableEq

/-- Embedding of `Weapon.__init__` (weapons/weapon.py lines 12-20). -/
def Weapon.init (fire_rate_hz : ℚ) : Weapon :=
  { fire_rate_hz := fire_rate_hz
    seconds_per_shot := 1 / fire_rate_hz
    time_since_last_shot := 1 / fire_rate_hz }

/-- Modelled from the spec: the concrete weapon classes implementing
`fire` (railgun, rocket launcher, ...) are not under src — only the abstract
`Weapon` base class is.  Per spec section 4.4, a weapon fires only when
`1/fire_rate_hz` seconds have elapsed since its last shot, producing its
beam/projectile and resetting the timer; attempting to fire earlier is a
no-op, not an error.  The second component is the number of beams/projectiles
produced by the call. -/
def Weapon.fire (w : Weapon) : Weapon × ℕ :=
  if w.seconds_per_shot ≤ w.time_since_last_shot then
    ({ w with time_since_last_shot := 0 }, 1)
  else
    (w, 0)

/-- Advance a weapon's cooldown clock by `dt` seconds of simulated time
(`time_since_last_shot` accumulates elapsed time between shots). -/
def Weapon.advance (w : Weapon) (dt : ℚ) : Weapon :=
  { w with time_since_last_shot := w.time_since_last_shot + dt }

/-! ### Real 2-D vectors and beam construction (hitscan_beam.py / weapon.py) -/

/-- A 2-D vector with real coordinates, for the beam-construction geometry
where `sqrt`, `cos`, `sin` and `π` occur. -/
structure Vec2R where
  x : ℝ
  y : ℝ

/-- Error message used to model the `ValueError` pygame raises when
normalizing a zero-length vector. -/
def zeroNormalizeMsg : String := "ValueError: cannot normalize a vector of length zero"

open Classical in
/-- Embedding of `pygame.math.Vector2.normalize`, called by both
`HitscanBeam.__init__` constructors: it raises `ValueError` on a zero-length
vector (pygame documented behaviour) and otherwise returns the vector scaled
to unit length, `v / sqrt (v.x² + v.y²)`. -/
noncomputable def Vec2R.normalize (v : Vec2R) : Except String Vec2R :=
  if v.x = 0 ∧ v.y = 0 then
    Except.error zeroNormalizeMsg
  else
    Except.ok ⟨v.x / Real.sqrt (v.x ^ 2 + v.y ^ 2),
               v.y / Real.sqrt (v.x ^ 2 + v.y ^ 2)⟩

/-- Fields computed by `HitscanBeam.__init__`
(simulation_object/hitscan_beam.py lines 17-53); `player` is the owning
player's id.  The `slope` and `quadrant_info` fields are computed by
`helpers.get_slope` / `helpers.get_sign`, which are not under src and on which
no claim depends, and the inherited `uuid` bookkeeping is likewise not
involved; they are omitted from the record. -/
structure HitscanBeamR where
  player : ℕ
  delta_x : ℝ
  delta_y : ℝ
  direction_vector : Vec2R
  start_point : Vec2R
  end_point : Vec2R
  damage : ℝ
  collision_force : ℝ

/-- Embedding of `HitscanBeam.__init__` (simulation_object/hitscan_beam.py
lines 17-53): compute the coordinate deltas, normalize
`end_point - start_point` — which raises exactly when the two points
coincide — and record the remaining fields.  The `HitscanBeam` class of
weapons/weapon.py (lines 30-54) performs the identical computation, minus the
`player` field. -/
noncomputable def hitscanBeamInit (player : ℕ) (start_point end_point : Vec2R)
    (collision_force damage : ℝ) : Except String HitscanBeamR := do
  let delta_y := end_point.y - start_point.y
  let delta_x := end_point.x - start_point.x
  let dv ← Vec2R.normalize ⟨end_point.x - start_point.x, end_point.y - start_point.y⟩
  Except.ok
    { player := player
      delta_x := delta_x
      delta_y := delta_y
      direction_vector := dv
      start_point := start_point
      end_point := end_point
      damage := damage
      collision_force := collision_force }

/-! ### weapons/weapon.py : RadialExplosives.activate -/

/-- The `HitscanBeam` class of weapons/weapon.py (the payload-side beam
class), same geometric fields as `HitscanBeamR` but no owning player. -/
structure WeaponHitscanBeam where
  delta_x : ℝ
  delta_y : ℝ
  direction_vector : Vec2R
  start_point : Vec2R
  end_point : Vec2R
  damage : ℝ
  collision_force : ℝ

/-- The constructor call `HitscanBeam(pos, shard_vec)` as written at
weapons/weapon.py line 119: it passes only two positional arguments, but
`HitscanBeam.__init__` of that same file (lines 30-36) also requires
`collision_force` and `damage` and gives them no defaults, so Python raises
`TypeError` before the constructor body runs.  Modelled as `Except.error`. -/
def weaponHitscanBeamTwoArgCall (_start_point _end_point : Vec2R) :
    Except String WeaponHitscanBeam :=
  Except.error "TypeError: HitscanBeam constructor missing 2 required positional arguments collision_force and damage"

/-- `RadialExplosives` payload parameters (weapons/weapon.py lines 99-103;
defaults `radius=100`, `power=750`, `num_shards=32`). -/
structure RadialExplosives where
  radius : ℝ
  power : ℝ
  num_shards : ℕ

/-- Modelled from the spec: `helpers.polar_to_cartesian` (module
weapons/helpers, not under src) converts the polar offset of length `r` at
angle `θ` into cartesian coordinates. -/
noncomputable def polar_to_cartesian (r θ : ℝ) : ℝ × ℝ :=
  (r * Real.cos θ, r * Real.sin θ)

/-- One iteration of the loop body of `RadialExplosives.activate`
(weapons/weapon.py lines 112-119): `angle = (τ / num_shards) * i`, the shard
offset via `polar_to_cartesian`, `shard_vec = offset + pos`, then the
two-argument `HitscanBeam` constructor call. -/
noncomputable def radialShard (self : RadialExplosives) (pos : Vec2R) (i : ℕ) :
    Except String WeaponHitscanBeam :=
  let angle_fraction := (2 * Real.pi) / (self.num_shards : ℝ)
  let angle := angle_fraction * (i : ℝ)
  let c := polar_to_cartesian self.radius angle
  weaponHitscanBeamTwoArgCall pos ⟨c.1 + pos.x, c.2 + pos.y⟩

/-- The `for i in range(num_shards)` loop of `RadialExplosives.activate`,
accumulating `explosion_beams` in order; a raising iteration propagates out
of the loop. -/
noncomputable def radialActivateLoop (self : RadialExplosives) (pos : Vec2R) :
    ℕ → ℕ → Except String (List WeaponHitscanBeam)
  | _, 0 => Except.ok []
  | i, k + 1 => do
    let b ← radialShard self pos i
    let rest ← radialActivateLoop self pos (i + 1) k
    Except.ok (b :: rest)

/-- Embedding of `RadialExplosives.activate` (weapons/weapon.py lines
105-120). -/
noncomputable def RadialExplosives.activate (self : RadialExplosives)
    (pos : Vec2R) : Except String (List WeaponHitscanBeam) :=
  radialActivateLoop self pos 0 self.num_shards

/-! ### frag-x-py/server.py : players, input queue and tick loop -/

/-- An input message as drained by the tick loop (server.py line 123:
`player_id, dx, dy, dm, delta_time = state_queue.get()`). -/
structure InputMessage where
  player_id : ℕ
  dx : ℚ
  dy : ℚ
  dm : ℝ
  delta_time : ℚ

/-- The per-player server state touched by the tick loop.  `ServerPlayer`
itself (module `player`) is not under src; the fields follow the spec's data
model: position, rotation/aim angle in radians, health, frag count. -/
structure ServerPlayer where
  pos : Vec2
  rotation_angle : ℝ
  health : ℤ
  num_frags : ℕ

/-- Modelled from the spec: `ServerPlayer.update_position(dx, dy, delta_time)`
(module `player`, not under src) "integrates velocity/movement deltas into
position using elapsed time dt". -/
def ServerPlayer.update_position (p : ServerPlayer) (dx dy dt : ℚ) : ServerPlayer :=
  { p with pos := p.pos + Vec2.smul dt ⟨dx, dy⟩ }

/-- Modelled from the spec: rotation angles are "wrapped into [0, 2π)". -/
noncomputable def wrapTau (θ : ℝ) : ℝ :=
  θ - 2 * Real.pi * ⌊θ / (2 * Real.pi)⌋

/-- Modelled from the spec: `ServerPlayer.update_aim(mouse_delta)` (module
`player`, not under src) "updates rotation angle, wrapped into [0, 2π)". -/
noncomputable def ServerPlayer.update_aim (p : ServerPlayer) (dm : ℝ) : ServerPlayer :=
  { p with rotation_angle := wrapTau (p.rotation_angle + dm) }

/-- The server's `id_to_player` map, as an association list ordered by
insertion (the acceptor inserts ids in increasing order). -/
def PlayerMap : Type := List (ℕ × ServerPlayer)

/-- One drained message applied to the player map (server.py lines 123-128):
if the addressed `player_id` is a key of `id_to_player`, that player's
position and aim are updated in place; otherwise the message is dropped. -/
noncomputable def applyInput (m : PlayerMap) (msg : InputMessage) : PlayerMap :=
  if msg.player_id ∈ m.map Prod.fst then
    m.map (fun ent =>
      if ent.1 = msg.player_id then
        (ent.1, (ent.2.update_position msg.dx msg.dy msg.delta_time).update_aim msg.dm)
      else ent)
  else m

/-- The drain loop of the server tick (server.py lines 121-128):
`while not state_queue.empty():` get one message and apply it.  The whole
drain runs with `q_drain_lock` held, and every producer acquires the same
lock around each `put`, so the queue contents at the start of the drain are
exactly the list consumed: modelled as recursion over that list. -/
noncomputable def drainInputQueue : List InputMessage → PlayerMap → PlayerMap
  | [], m => m
  | msg :: rest, m => drainInputQueue rest (applyInput m msg)

/-- One entry of the snapshot: modelled from the spec (the
`get_sendable_state` method of `ServerPlayer` is not under src; per the spec
a snapshot carries each player's position, aim, health and frags). -/
structure SendableState where
  player_id : ℕ
  pos : Vec2
  rotation_angle : ℝ
  health : ℤ
  num_frags : ℕ

/-- Modelled from the spec: `get_sendable_state` for one player-map entry. -/
def get_sendable_state (ent : ℕ × ServerPlayer) : SendableState :=
  { player_id := ent.1
    pos := ent.2.pos
    rotation_angle := ent.2.rotation_angle
    health := ent.2.health
    num_frags := ent.2.num_frags }

/-- Steps 1-3 of one server tick (server.py lines 119-136): drain the whole
input queue under `q_drain_lock`, then assemble `server_updates` by appending
every player's sendable state in map order.  The returned list is the
snapshot handed to the broadcast loop. -/
noncomputable def serverTickSnapshot (queue : List InputMessage) (m : PlayerMap) :
    List SendableState :=
  (drainInputQueue queue m).map get_sendable_state

/-! ### frag-x-py/server.py : per-connection producer thread -/

/-- One result of `conn.recv(BUF_SIZE)` in `client_state_producer`:
`data s` is a non-empty received chunk (decoded utf-8), `closed` a zero-length
read, `err` a raised socket exception. -/
inductive RecvEvent where
  | data (s : String) : RecvEvent
  | closed : RecvEvent
  | err : RecvEvent
deriving DecidableEq

/-- Whether the producer thread has exited (closing its socket) or is still
blocked in `recv` waiting for more data. -/
inductive ProducerStatus where
  | socketClosed : ProducerStatus
  | stillReceiving : ProducerStatus
deriving DecidableEq

/-- The shared server state a connection thread can observe: the input queue
(guarded by `q_drain_lock`) and the player map (guarded by `player_lock`). -/
structure SharedState where
  state_queue : List InputMessage
  id_to_player : PlayerMap

/-- Embedding of `client_state_producer` (server.py lines 33-77) over a
finite list of receive results.  `parse` abstracts
`converters.str_to_player_data` (not under src).  On data: append to
`recv_buffer`, split on the `~` sentinel, keep the trailing partial record as
the new buffer, and enqueue each complete record under the queue lock.  On a
zero-length read or an exception: break out of the loop, after which the
socket is closed.  The function threads the whole shared state; note the map
component is never touched. -/
def client_state_producer (parse : String → InputMessage) :
    List RecvEvent → String → SharedState → SharedState × ProducerStatus
  | [], _, st => (st, .stillReceiving)
  | .closed :: _, _, st => (st, .socketClosed)
  | .err :: _, _, st => (st, .socketClosed)
  | .data s :: rest, recv_buffer, st =>
    let messages := (recv_buffer ++ s).splitOn "~"
    client_state_producer parse rest (messages.getLastD "")
      { st with state_queue := st.state_queue ++ (messages.dropLast).map parse }

/-! ### frag-x-py/server.py : lock discipline -/

/-- The two locks of server.py (line 105 `q_drain_lock`, line 106
`player_lock`). -/
inductive ServerLock where
  | q_drain_lock : ServerLock
  | player_lock : ServerLock
deriving DecidableEq

/-- Program counter of the tick thread (server.py lines 115-146): `top` before
line 119, `draining` while holding `q_drain_lock` (lines 119-130),
`betweenLocks` after line 130 and before line 132, `broadcasting` while
holding `player_lock` (lines 132-146). -/
inductive TickPc where
  | top : TickPc
  | draining : TickPc
  | betweenLocks : TickPc
  | broadcasting : TickPc
deriving DecidableEq

/-- Program counter of one `client_state_producer` thread: `receiving`
outside the `q_drain_lock.acquire()` / `release()` window (lines 65-69),
`queueing` inside it. -/
inductive ProducerPc where
  | receiving : ProducerPc
  | queueing : ProducerPc
deriving DecidableEq

/-- Program counter of `threaded_server_acceptor` (server.py lines 81-100):
`accepting` outside the `player_lock.acquire()` / `release()` window (lines
90-94), `registering` inside it. -/
inductive AcceptorPc where
  | accepting : AcceptorPc
  | registering : AcceptorPc
deriving DecidableEq

/-- Locks held by the tick thread at each program point. -/
def tickHeld : TickPc → List ServerLock
  | .top => []
  | .draining => [.q_drain_lock]
  | .betweenLocks => []
  | .broadcasting => [.player_lock]

/-- Locks held by a producer thread at each program point. -/
def producerHeld : ProducerPc → List ServerLock
  | .receiving => []
  | .queueing => [.q_drain_lock]

/-- Locks held by the acceptor thread at each program point. -/
def acceptorHeld : AcceptorPc → List ServerLock
  | .accepting => []
  | .registering => [.player_lock]

/-- A configuration of the server's threads: the tick thread, the acceptor
thread, and one producer thread per accepted connection. -/
structure ServerThreads where
  tick : TickPc
  acceptor : AcceptorPc
  producers : List ProducerPc

/-- Whether lock `l` is free in configuration `c` (held by no thread). -/
def lockFree (c : ServerThreads) (l : ServerLock) : Prop :=
  l ∉ tickHeld c.tick ∧ l ∉ acceptorHeld c.acceptor ∧
    ∀ p ∈ c.producers, l ∉ producerHeld p

/-- Replace the producer program counter at position `i`. -/
def setProducer (ps : List ProducerPc) (i : ℕ) (pc : ProducerPc) : List ProducerPc :=
  ps.set i pc

/-- Interleaving semantics of server.py: each step is one thread performing
its next lock acquire or release (acquires only when the lock is free —
mutual exclusion), or the acceptor spawning a new producer thread when it
releases `player_lock` (line 97), or a producer thread exiting while not
holding any lock. -/
inductive ServerStep : ServerThreads → ServerThreads → Prop where
  | tickAcquireQ (c : ServerThreads) (h : c.tick = .top)
      (hfree : lockFree c .q_drain_lock) :
      ServerStep c { c with tick := .draining }
  | tickReleaseQ (c : ServerThreads) (h : c.tick = .draining) :
      ServerStep c { c with tick := .betweenLocks }
  | tickAcquireP (c : ServerThreads) (h : c.tick = .betweenLocks)
      (hfree : lockFree c .player_lock) :
      ServerStep c { c with tick := .broadcasting }
  | tickReleaseP (c : ServerThreads) (h : c.tick = .broadcasting) :
      ServerStep c { c with tick := .top }
  | acceptorAcquireP (c : ServerThreads) (h : c.acceptor = .accepting)
      (hfree : lockFree c .player_lock) :
      ServerStep c { c with acceptor := .registering }
  | acceptorReleaseAndSpawn (c : ServerThreads) (h : c.acceptor = .registering) :
      ServerStep c { c with acceptor := .accepting,
                            producers := .receiving :: c.producers }
  | producerAcquireQ (c : ServerThreads) (i : ℕ)
      (h : c.producers.get? i = some .receiving)
      (hfree : lockFree c .q_drain_lock) :
      ServerStep c { c with producers := setProducer c.producers i .queueing }
  | producerReleaseQ (c : ServerThreads) (i : ℕ)
      (h : c.producers.get? i = some .queueing) :
      ServerStep c { c with producers := setProducer c.producers i .receiving }

/-- Initial configuration: main thread before its first tick, acceptor
blocked in `accept`, no connections yet. -/
def initServerThreads : ServerThreads :=
  { tick := .top, acceptor := .accepting, producers := [] }

/-- Configurations reachable from server start. -/
inductive ReachableServer : ServerThreads → Prop where
  | init : ReachableServer initServerThreads
  | step {c c' : ServerThreads} (h : ReachableServer c) (hs : ServerStep c c') :
      ReachableServer c'

/-! ### Network framing (client.py game_state_watcher / server.py broadcast) -/

/-- Little-endian interpretation of a byte list, from client.py line 45:
`int.from_bytes(size_bytes, "little")`. -/
def fromLittleEndian (bs : List ℕ) : ℕ :=
  bs.foldr (fun b acc => b + 256 * acc) 0

/-- Modelled from the spec: the 4-byte little-endian length prefix of the
server→client protocol (section 6).  Division constants are the byte place
values 256, 256², 256³. -/
def toLittleEndian4 (n : ℕ) : List ℕ :=
  [n % 256, (n / 256) % 256, (n / 65536) % 256, (n / 16777216) % 256]

/-- Modelled from the spec: a framed server→client message — 4-byte
little-endian length prefix followed by exactly the payload bytes. -/
def encodeFrame (payload : List ℕ) : List ℕ :=
  toLittleEndian4 payload.length ++ payload

/-- The bytes server.py actually puts on the wire per client (line 141:
`p.socket.sendall(pickle.dumps(server_updates))`): exactly the serialized
payload bytes, with no length prefix (serialization itself is abstracted —
`payload` stands for the `pickle.dumps` output). -/
def serverSendBytes (payload : List ℕ) : List ℕ := payload

/-- Modelled from the spec: `helpers.recv_exactly(socket, n)` (module
`helpers`, not under src) returns exactly `n` bytes from the stream no matter
how the transport chunks them, leaving the remaining bytes in the stream; if
the stream ends early it returns what was available.  The stream is a list of
chunks as delivered by the transport. -/
def recvExactly : ℕ → List (List ℕ) → List ℕ × List (List ℕ)
  | _, [] => ([], [])
  | n, chunk :: rest =>
    if n ≤ chunk.length then (chunk.take n, chunk.drop n :: rest)
    else
      let r := recvExactly (n - chunk.length) rest
      (chunk ++ r.1, r.2)

/-- One iteration of the client's receive loop (client.py lines 41-47,
`game_state_watcher`): read 4 bytes, interpret them as a little-endian
length, then read exactly that many payload bytes.  Returns the reassembled
payload and the remaining stream. -/
def clientReceiveMessage (stream : List (List ℕ)) : List ℕ × List (List ℕ) :=
  let r4 := recvExactly 4 stream
  let size := fromLittleEndian r4.1
  recvExactly size r4.2

/-! ### frag-x-py/server.py : broadcast loop -/

/-- Embedding of the broadcast step of the server tick (frag-x-py/server.py
lines 139-141): `for p in id_to_player.values(): p.socket.sendall(...)`.
There is no exception handling around `sendall`, so a raising send aborts the
loop (and the exception propagates out of the tick loop).  `fails c = true`
models `sendall` raising for client `c`.  Returns the list of clients that
received this tick's snapshot, in iteration order, and whether an exception
escaped the loop. -/
def broadcastSnapshot (fails : ℕ → Bool) : List ℕ → List ℕ × Bool
  | [] => ([], false)
  | c :: rest =>
    if fails c then ([], true)
    else
      let r := broadcastSnapshot fails rest
      (c :: r.1, r.2)

end FragX

namespace FragX

/-! ## Theorems -/

/-- Claim C1 (code bug): applying a lethal hit to a player whose health is
already `≤ 0` and whose `time_of_death` is already set nevertheless increments
the firer's `num_frags` — the increment in `HitscanBeam.step` sits outside the
`if hit_player.time_of_death is None` guard.  Evaluated at the failing input:
beam damage 10, firer with 3 frags, hit player with health −5 and
time_of_death already recorded at tick 40: the firer ends with 4 frags, not
the unchanged 3 the claim requires, while the victim's recorded
time_of_death stays 40. -/
theorem frag_credit_not_idempotent :
    (HitscanBeam.step ⟨⟨1, 0⟩, 10, 5⟩ 100 ⟨100, 0, none, 3⟩
        (.playerHit ⟨-5, 0, some 40, 0⟩)).1.num_frags = 3 + 1 ∧
    (HitscanBeam.step ⟨⟨1, 0⟩, 10, 5⟩ 100 ⟨100, 0, none, 3⟩
        (.playerHit ⟨-5, 0, some 40, 0⟩)).2 =
      some ⟨-15, 0, some 40, 0⟩ := by
  constructor <;> rfl

/-- Claim C3: when a beam hits a live-map player, `HitscanBeam.step` reduces
the hit player's health by exactly the beam's damage; if the resulting health
is positive the hit player's velocity gains `direction_vector *
collision_force` (and time_of_death is untouched); if the resulting health is
`≤ 0` the velocity is zeroed and time_of_death is recorded exactly when it was
not already set. -/
theorem step_damage_knockback_death (b : HitscanBeam) (now : ℕ)
    (firer hp : PlayerState) :
    ∃ hp2, (HitscanBeam.step b now firer (.playerHit hp)).2 = some hp2 ∧
      hp2.health = hp.health - b.damage ∧
      (0 < hp.health - b.damage →
        hp2.velocity = hp.velocity + Vec2.smul b.collision_force b.direction_vector ∧
        hp2.time_of_death = hp.time_of_death) ∧
      (hp.health - b.damage ≤ 0 →
        hp2.velocity = 0 ∧
        (hp.time_of_death = none → hp2.time_of_death = some now) ∧
        (∀ t, hp.time_of_death = some t → hp2.time_of_death = some t)) := by
  obtain ⟨hh, hv, htod, hf⟩ := hp
  by_cases h : hh - b.damage ≤ 0
  · cases htod with
    | none =>
        refine ⟨⟨hh - b.damage, 0, some now, hf⟩, ?_, rfl, ?_, ?_⟩
        · simp [HitscanBeam.step, h]
        · intro hpos; exact absurd hpos (not_lt.mpr h)
        · intro _
          refine ⟨rfl, fun _ => rfl, ?_⟩
          intro t ht; cases ht
    | some t0 =>
        refine ⟨⟨hh - b.damage, 0, some t0, hf⟩, ?_, rfl, ?_, ?_⟩
        · simp [HitscanBeam.step, h]
        · intro hpos; exact absurd hpos (not_lt.mpr h)
        · intro _
          refine ⟨rfl, ?_, ?_⟩
          · intro hn; cases hn
          · intro t ht; cases ht; rfl
  · refine ⟨⟨hh - b.damage,
        hv + Vec2.smul b.collision_force b.direction_vector, htod, hf⟩,
        ?_, rfl, ?_, ?_⟩
    · simp [HitscanBeam.step, h]
    · exact fun _ => ⟨rfl, rfl⟩
    · intro hle; exact absurd hle h

/-- Claim C4: a weapon whose cooldown has elapsed fires exactly once when
`fire` is called twice within `1/fire_rate_hz` seconds of simulated time: the
first call produces one beam/projectile, the second is a no-op (produces
nothing, changes no state). -/
theorem fire_cooldown_second_call_noop (w : Weapon) (dt : ℚ)
    (hready : w.seconds_per_shot ≤ w.time_since_last_shot)
    (_hpos : 0 < w.seconds_per_shot)
    (_hdt : 0 ≤ dt) (hlt : dt < w.seconds_per_shot) :
    w.fire.2 + ((w.fire.1.advance dt).fire).2 = 1 ∧
    ((w.fire.1.advance dt).fire).1 = w.fire.1.advance dt := by
  have h1 : w.fire = ({ w with time_since_last_shot := 0 }, 1) := by
    simp [Weapon.fire, hready]
  have h2 : ¬ ((({ w with time_since_last_shot := 0 } : Weapon).advance dt).seconds_per_shot ≤
      (({ w with time_since_last_shot := 0 } : Weapon).advance dt).time_since_last_shot) := by
    simp only [Weapon.advance]
    push_neg
    linarith
  rw [h1]
  simp [Weapon.fire, h2]

/-- Witness for C4: a weapon created by `Weapon.init` with `fire_rate_hz = 2`
(cooldown one half second), second fire attempted a quarter second later. -/
theorem fire_cooldown_second_call_noop_witness :
    (Weapon.init 2).fire.2 + (((Weapon.init 2).fire.1.advance (1/4)).fire).2 = 1 ∧
    (((Weapon.init 2).fire.1.advance (1/4)).fire).1 =
      (Weapon.init 2).fire.1.advance (1/4) :=
  fire_cooldown_second_call_noop (Weapon.init 2) (1/4)
    (by norm_num [Weapon.init]) (by norm_num [Weapon.init])
    (by norm_num) (by norm_num [Weapon.init])

/-- Claim C5, counterexample: with two connected clients `[0, 1]` where the
send to client 0 raises, client 1 does not receive the snapshot — the
unguarded `sendall` loop aborts on the first failure, so a failed send to one
client does prevent delivery to the remaining clients. -/
theorem broadcast_failure_blocks_remaining_clients :
    ¬ (∀ c ∈ [0, 1], c ≠ 0 →
        c ∈ (broadcastSnapshot (fun x => x == 0) [0, 1]).1) := by
  decide

/-- Claim C5 as amended: the broadcast loop delivers the snapshot exactly to
the clients that precede the first failing client in iteration order (the
longest all-sends-succeed prefix), and an exception escapes the loop exactly
when some client's send fails; clients after the first failing one are
skipped. -/
theorem broadcast_delivers_until_first_failure (fails : ℕ → Bool)
    (clients : List ℕ) :
    broadcastSnapshot fails clients =
      (clients.takeWhile (fun c => ! fails c), clients.any fails) := by
  induction clients with
  | nil => rfl
  | cons c rest ih =>
      by_cases h : fails c
      · simp [broadcastSnapshot, h, List.takeWhile_cons, List.any_cons]
      · simp [broadcastSnapshot, h, List.takeWhile_cons, List.any_cons, ih]

/-- Witness for C3 at a concrete input: a 10-damage beam with direction
`(1, 0)` and collision force 5 hitting a player at 100 health. -/
theorem step_damage_knockback_death_witness :
    ∃ hp2,
      (HitscanBeam.step ⟨⟨1, 0⟩, 10, 5⟩ 7 ⟨100, 0, none, 0⟩
          (.playerHit ⟨100, ⟨2, 3⟩, none, 1⟩)).2 = some hp2 ∧
      hp2.health = 100 - 10 ∧
      (0 < (100 : ℤ) - 10 →
        hp2.velocity = Vec2.mk 2 3 + Vec2.smul 5 ⟨1, 0⟩ ∧
        hp2.time_of_death = none) ∧
      ((100 : ℤ) - 10 ≤ 0 →
        hp2.velocity = 0 ∧
        ((none : Option ℕ) = none → hp2.time_of_death = some 7) ∧
        (∀ t, (none : Option ℕ) = some t → hp2.time_of_death = some t)) :=
  step_damage_knockback_death ⟨⟨1, 0⟩, 10, 5⟩ 7 ⟨100, 0, none, 0⟩
    ⟨100, ⟨2, 3⟩, none, 1⟩

/-- Helper: a successful `Vec2R.normalize` returns a unit vector. -/
theorem normalize_unit (v dv : Vec2R) (h : Vec2R.normalize v = Except.ok dv) :
    dv.x ^ 2 + dv.y ^ 2 = 1 := by
  by_cases hz : v.x = 0 ∧ v.y = 0
  · simp [Vec2R.normalize, hz] at h
  · have hpos : 0 < v.x ^ 2 + v.y ^ 2 := by
      rcases not_and_or.mp hz with h0 | h0
      · exact add_pos_of_pos_of_nonneg
          (lt_of_le_of_ne (sq_nonneg _) (Ne.symm (pow_ne_zero 2 h0))) (sq_nonneg _)
      · exact add_pos_of_nonneg_of_pos (sq_nonneg _)
          (lt_of_le_of_ne (sq_nonneg _) (Ne.symm (pow_ne_zero 2 h0)))
    have hdv : dv = Vec2R.mk (v.x / Real.sqrt (v.x ^ 2 + v.y ^ 2))
        (v.y / Real.sqrt (v.x ^ 2 + v.y ^ 2)) := by
      have h2 := h
      simp [Vec2R.normalize, hz] at h2
      exact h2.symm
    rw [hdv]
    show (v.x / Real.sqrt (v.x ^ 2 + v.y ^ 2)) ^ 2 +
      (v.y / Real.sqrt (v.x ^ 2 + v.y ^ 2)) ^ 2 = 1
    rw [div_pow, div_pow, div_add_div_same, Real.sq_sqrt hpos.le,
      div_self (ne_of_gt hpos)]

/-- Claim C10: constructing a `HitscanBeam` whose start point equals its end
point raises (the zero-length direction vector cannot be normalized), and
every successfully constructed beam carries a well-defined unit direction
vector. -/
theorem beam_construction_requires_distinct_points (player : ℕ)
    (s e : Vec2R) (force damage : ℝ) :
    (s = e → hitscanBeamInit player s e force damage =
      Except.error zeroNormalizeMsg) ∧
    (∀ b, hitscanBeamInit player s e force damage = Except.ok b →
      b.direction_vector.x ^ 2 + b.direction_vector.y ^ 2 = 1) := by
  constructor
  · intro hse
    subst hse
    simp [hitscanBeamInit, Vec2R.normalize, sub_self, Bind.bind, Except.bind]
  · intro b hb
    rcases hnorm : Vec2R.normalize ⟨e.x - s.x, e.y - s.y⟩ with msg | dv
    · rw [hitscanBeamInit, hnorm] at hb
      simp [Bind.bind, Except.bind] at hb
    · rw [hitscanBeamInit, hnorm] at hb
      simp only [Bind.bind, Except.bind, Except.ok.injEq] at hb
      subst hb
      exact normalize_unit _ _ hnorm

/-- Concrete beam produced by `hitscanBeamInit 7 (0,0) (3,4) 5 10`, used by
the witness for the beam-construction claim. -/
noncomputable def exampleBeamR : HitscanBeamR :=
  { player := 7
    delta_x := (3 : ℝ) - 0
    delta_y := (4 : ℝ) - 0
    direction_vector :=
      ⟨((3 : ℝ) - 0) / Real.sqrt (((3 : ℝ) - 0) ^ 2 + ((4 : ℝ) - 0) ^ 2),
       ((4 : ℝ) - 0) / Real.sqrt (((3 : ℝ) - 0) ^ 2 + ((4 : ℝ) - 0) ^ 2)⟩
    start_point := ⟨0, 0⟩
    end_point := ⟨3, 4⟩
    damage := 10
    collision_force := 5 }

/-- Witness for C10: constructing a beam from `(1,2)` to `(1,2)` raises, and
the beam from `(0,0)` to `(3,4)` is constructed with a unit direction
vector. -/
theorem beam_construction_requires_distinct_points_witness :
    hitscanBeamInit 7 ⟨1, 2⟩ ⟨1, 2⟩ 5 10 = Except.error zeroNormalizeMsg ∧
    ∃ b, hitscanBeamInit 7 ⟨0, 0⟩ ⟨3, 4⟩ 5 10 = Except.ok b ∧
      b.direction_vector.x ^ 2 + b.direction_vector.y ^ 2 = 1 := by
  constructor
  · exact (beam_construction_requires_distinct_points 7 ⟨1, 2⟩ ⟨1, 2⟩ 5 10).1 rfl
  · have hcond : ¬ (((3 : ℝ) - 0 = 0) ∧ ((4 : ℝ) - 0 = 0)) := by norm_num
    have hok : hitscanBeamInit 7 ⟨0, 0⟩ ⟨3, 4⟩ 5 10 = Except.ok exampleBeamR := by
      rw [hitscanBeamInit, Vec2R.normalize]
      rw [if_neg hcond]
      rfl
    exact ⟨exampleBeamR, hok,
      (beam_construction_requires_distinct_points 7 ⟨0, 0⟩ ⟨3, 4⟩ 5 10).2
        exampleBeamR hok⟩

/-- Helper: applying one input message never changes the key list of the
player map. -/
theorem applyInput_keys (m : PlayerMap) (msg : InputMessage) :
    (applyInput m msg).map Prod.fst = m.map Prod.fst := by
  unfold applyInput
  by_cases h : msg.player_id ∈ m.map Prod.fst
  · rw [if_pos h, List.map_map]
    apply List.map_congr_left
    intro ent _
    by_cases he : ent.1 = msg.player_id <;> simp [he]
  · rw [if_neg h]

/-- Helper: the drain loop is the left fold of `applyInput` over the whole
queue. -/
theorem drainInputQueue_eq_foldl (queue : List InputMessage) (m : PlayerMap) :
    drainInputQueue queue m = queue.foldl applyInput m := by
  induction queue generalizing m with
  | nil => rfl
  | cons msg rest ih => simp [drainInputQueue, List.foldl_cons, ih]

/-- Helper: draining the queue never changes the key list of the player
map. -/
theorem drainInputQueue_keys (queue : List InputMessage) (m : PlayerMap) :
    (drainInputQueue queue m).map Prod.fst = m.map Prod.fst := by
  induction queue generalizing m with
  | nil => rfl
  | cons msg rest ih =>
      rw [drainInputQueue, ih, applyInput_keys]

/-- Helper: the id recorded in a sendable state is the map key. -/
theorem sendable_state_id :
    SendableState.player_id ∘ get_sendable_state = Prod.fst := by
  funext ent
  rfl

/-- Claim C6: within one tick, every input message present in the queue at
the start of the drain step is applied (position and aim, with the
addressed-player guard) before the snapshot is assembled: the snapshot equals
the per-player sendable states of the map after folding the entire queue —
the net effect of all queued inputs, never a strict subset — and it contains
exactly one entry per registered player, in map order. -/
theorem tick_snapshot_reflects_all_inputs (queue : List InputMessage)
    (m : PlayerMap) :
    serverTickSnapshot queue m =
      (queue.foldl applyInput m).map get_sendable_state ∧
    (serverTickSnapshot queue m).map SendableState.player_id = m.map Prod.fst := by
  constructor
  · rw [serverTickSnapshot, drainInputQueue_eq_foldl]
  · rw [serverTickSnapshot, List.map_map, sendable_state_id, drainInputQueue_keys]

/-- Claim C7: in every reachable interleaving of the tick thread, the
acceptor thread and the producer threads, no single thread ever holds
`q_drain_lock` and `player_lock` at the same time. -/
theorem locks_never_held_together (c : ServerThreads)
    (h : ReachableServer c) :
    (¬ (ServerLock.q_drain_lock ∈ tickHeld c.tick ∧
        ServerLock.player_lock ∈ tickHeld c.tick)) ∧
    (¬ (ServerLock.q_drain_lock ∈ acceptorHeld c.acceptor ∧
        ServerLock.player_lock ∈ acceptorHeld c.acceptor)) ∧
    (∀ pc ∈ c.producers,
      ¬ (ServerLock.q_drain_lock ∈ producerHeld pc ∧
         ServerLock.player_lock ∈ producerHeld pc)) := by
  obtain ⟨t, a, ps⟩ := c
  refine ⟨?_, ?_, ?_⟩
  · cases t <;> simp [tickHeld]
  · cases a <;> simp [acceptorHeld]
  · intro pc _
    cases pc <;> simp [producerHeld]

/-- Witness for C7 at the reachable configuration where the tick thread holds
`q_drain_lock` (draining) while the acceptor simultaneously holds
`player_lock` (registering a new connection): reached from start by the tick
thread acquiring the queue lock, then the acceptor acquiring the player
lock. -/
theorem locks_never_held_together_witness :
    (¬ (ServerLock.q_drain_lock ∈ tickHeld TickPc.draining ∧
        ServerLock.player_lock ∈ tickHeld TickPc.draining)) ∧
    (¬ (ServerLock.q_drain_lock ∈ acceptorHeld AcceptorPc.registering ∧
        ServerLock.player_lock ∈ acceptorHeld AcceptorPc.registering)) ∧
    (∀ pc ∈ ([] : List ProducerPc),
      ¬ (ServerLock.q_drain_lock ∈ producerHeld pc ∧
         ServerLock.player_lock ∈ producerHeld pc)) :=
  locks_never_held_together ⟨TickPc.draining, AcceptorPc.registering, []⟩
    (ReachableServer.step
      (ReachableServer.step ReachableServer.init
        (ServerStep.tickAcquireQ initServerThreads rfl
          ⟨by decide, by decide, by intro p hp; cases hp⟩))
      (ServerStep.acceptorAcquireP
        { initServerThreads with tick := TickPc.draining } rfl
        ⟨by decide, by decide, by intro p hp; cases hp⟩))

/-- Helper: `client_state_producer` never modifies the player map, whatever
it receives. -/
theorem producer_map_unchanged (parse : String → InputMessage)
    (events : List RecvEvent) (buf : String) (st : SharedState) :
    (client_state_producer parse events buf st).1.id_to_player =
      st.id_to_player := by
  induction events generalizing buf st with
  | nil => rfl
  | cons e rest ih =>
      cases e with
      | data s => exact ih _ _
      | closed => rfl
      | err => rfl

/-- Helper: if the event sequence contains a zero-length read or a socket
exception, the producer loop breaks out and the thread exits, closing the
socket. -/
theorem producer_disconnect_closes (parse : String → InputMessage)
    (events : List RecvEvent) (buf : String) (st : SharedState)
    (hdisc : RecvEvent.closed ∈ events ∨ RecvEvent.err ∈ events) :
    (client_state_producer parse events buf st).2 =
      ProducerStatus.socketClosed := by
  induction events generalizing buf st with
  | nil => rcases hdisc with h | h <;> cases h
  | cons e rest ih =>
      cases e with
      | data s =>
          simp only [List.mem_cons] at hdisc
          apply ih
          rcases hdisc with (h | h) | (h | h)
          · cases h
          · exact Or.inl h
          · cases h
          · exact Or.inr h
      | closed => rfl
      | err => rfl

/-- Claim C8: on connection loss (zero-length read or socket exception) the
per-connection thread exits with its socket closed, the disconnected
player's entry is still in `id_to_player` (the producer never modifies the
map), and any subsequent tick's snapshot still carries an entry for that
player. -/
theorem disconnect_keeps_player_in_snapshots (parse : String → InputMessage)
    (events : List RecvEvent) (buf : String) (st : SharedState) (pid : ℕ)
    (hdisc : RecvEvent.closed ∈ events ∨ RecvEvent.err ∈ events)
    (hpid : pid ∈ st.id_to_player.map Prod.fst) :
    (client_state_producer parse events buf st).1.id_to_player =
      st.id_to_player ∧
    (client_state_producer parse events buf st).2 =
      ProducerStatus.socketClosed ∧
    ∀ queue, pid ∈ (serverTickSnapshot queue
        (client_state_producer parse events buf st).1.id_to_player).map
        SendableState.player_id := by
  have hmap := producer_map_unchanged parse events buf st
  refine ⟨hmap, producer_disconnect_closes parse events buf st hdisc, ?_⟩
  intro queue
  rw [hmap, serverTickSnapshot, List.map_map, sendable_state_id,
    drainInputQueue_keys]
  exact hpid

/-- Witness for C8: a producer that receives one data chunk and then a
zero-length read, with player 0 registered; the final map still holds player
0 and the empty-queue tick snapshot lists player 0. -/
theorem disconnect_keeps_player_in_snapshots_witness :
    (client_state_producer (fun _ => ⟨0, 0, 0, 0, 0⟩)
        [RecvEvent.data "ab~c", RecvEvent.closed] ""
        ⟨[], [(0, ⟨⟨0, 0⟩, 0, 100, 0⟩)]⟩).1.id_to_player =
      [(0, ⟨⟨0, 0⟩, 0, 100, 0⟩)] ∧
    (client_state_producer (fun _ => ⟨0, 0, 0, 0, 0⟩)
        [RecvEvent.data "ab~c", RecvEvent.closed] ""
        ⟨[], [(0, ⟨⟨0, 0⟩, 0, 100, 0⟩)]⟩).2 = ProducerStatus.socketClosed ∧
    0 ∈ (serverTickSnapshot []
        (client_state_producer (fun _ => ⟨0, 0, 0, 0, 0⟩)
          [RecvEvent.data "ab~c", RecvEvent.closed] ""
          ⟨[], [(0, ⟨⟨0, 0⟩, 0, 100, 0⟩)]⟩).1.id_to_player).map
        SendableState.player_id := by
  have h := disconnect_keeps_player_in_snapshots (fun _ => ⟨0, 0, 0, 0, 0⟩)
    [RecvEvent.data "ab~c", RecvEvent.closed] ""
    ⟨[], [(0, ⟨⟨0, 0⟩, 0, 100, 0⟩)]⟩ 0
    (Or.inl (by simp)) (by simp)
  exact ⟨h.1, h.2.1, h.2.2 []⟩

/-- Helper: `recvExactly n` returns the first `n` bytes of the flattened
stream (or all of it, if shorter), independent of chunk boundaries. -/
theorem recvExactly_take (n : ℕ) (stream : List (List ℕ)) :
    (recvExactly n stream).1 = stream.flatten.take n := by
  induction stream generalizing n with
  | nil => simp [recvExactly]
  | cons chunk rest ih =>
      by_cases h : n ≤ chunk.length
      · simp [recvExactly, h, List.take_append_eq_append_take,
          Nat.sub_eq_zero_of_le h]
      · simp [recvExactly, h, List.take_append_eq_append_take, ih,
          List.take_of_length_le (le_of_not_le h)]

/-- Helper: after `recvExactly n` the rest of the stream flattens to the
flattened input minus its first `n` bytes. -/
theorem recvExactly_rest (n : ℕ) (stream : List (List ℕ)) :
    ((recvExactly n stream).2).flatten = stream.flatten.drop n := by
  induction stream generalizing n with
  | nil => simp [recvExactly]
  | cons chunk rest ih =>
      by_cases h : n ≤ chunk.length
      · simp [recvExactly, h, List.drop_append_eq_append_drop,
          Nat.sub_eq_zero_of_le h]
      · simp [recvExactly, h, List.drop_append_eq_append_drop, ih,
          List.drop_eq_nil_of_le (le_of_not_le h)]

/-- Claim C9, counterexample: server.py broadcasts the serialized payload
with no 4-byte length prefix (`sendall(pickle.dumps(...))`), so the claimed
round trip fails: for the 5-byte payload `[1, 0, 0, 0, 2]` delivered in one
chunk, the client's receive loop interprets the first four bytes as the
length 1 and reassembles `[2]`, not the payload. -/
theorem server_client_framing_mismatch :
    ¬ ((clientReceiveMessage [serverSendBytes [1, 0, 0, 0, 2]]).1 =
        [1, 0, 0, 0, 2]) := by
  decide

/-- Claim C9 as amended: the client's receive loop correctly reassembles any
properly length-prefixed message byte-for-byte regardless of how the stream
is chunked, leaving the trailing bytes in the stream — but server.py's
broadcast does not produce that framing (see the counterexample), so the
end-to-end round trip holds only for streams framed per the spec. -/
theorem client_reassembles_framed_message (payload trailing : List ℕ)
    (stream : List (List ℕ)) (hlen : payload.length < 4294967296)
    (hstream : stream.flatten = encodeFrame payload ++ trailing) :
    (clientReceiveMessage stream).1 = payload ∧
    ((clientReceiveMessage stream).2).flatten = trailing := by
  have hlen4 : (toLittleEndian4 payload.length).length = 4 := rfl
  have h4 : (recvExactly 4 stream).1 = toLittleEndian4 payload.length := by
    rw [recvExactly_take, hstream, encodeFrame, List.append_assoc,
      List.take_left' hlen4]
  have hrest : ((recvExactly 4 stream).2).flatten = payload ++ trailing := by
    rw [recvExactly_rest, hstream, encodeFrame, List.append_assoc,
      List.drop_left' hlen4]
  have hsize : fromLittleEndian (toLittleEndian4 payload.length) =
      payload.length := by
    simp only [fromLittleEndian, toLittleEndian4, List.foldr_cons,
      List.foldr_nil]
    omega
  unfold clientReceiveMessage
  constructor
  · show (recvExactly (fromLittleEndian (recvExactly 4 stream).1)
        (recvExactly 4 stream).2).1 = payload
    rw [h4, hsize, recvExactly_take, hrest, List.take_left]
  · show ((recvExactly (fromLittleEndian (recvExactly 4 stream).1)
        (recvExactly 4 stream).2).2).flatten = trailing
    rw [h4, hsize, recvExactly_rest, hrest, List.drop_left]

/-- Witness for C9 (amended): the framed 3-byte payload `[10, 20, 30]` with a
trailing byte, delivered in four uneven chunks, is reassembled exactly. -/
theorem client_reassembles_framed_message_witness :
    (clientReceiveMessage [[3], [0, 0], [0, 10], [20, 30, 9]]).1 =
      [10, 20, 30] ∧
    ((clientReceiveMessage [[3], [0, 0], [0, 10], [20, 30, 9]]).2).flatten =
      [9] :=
  client_reassembles_framed_message [10, 20, 30] [9]
    [[3], [0, 0], [0, 10], [20, 30, 9]] (by decide) (by decide)

/-- Claim C2 (code bug): `RadialExplosives.activate` never returns its list of
shard beams — its constructor call `HitscanBeam(pos, shard_vec)` omits the two
required positional arguments `collision_force` and `damage`, so for the
default payload (`num_shards = 32`) the first loop iteration raises
`TypeError` instead of producing 32 evenly spaced beams. -/
theorem radial_activate_raises_type_error :
    RadialExplosives.activate ⟨100, 750, 32⟩ ⟨0, 0⟩ =
      Except.error "TypeError: HitscanBeam constructor missing 2 required positional arguments collision_force and damage" := by
  rfl

end FragX
